import Mathlib

/-!
Shallow embedding of the particle-evolution core of `bsf`
(`Source/Foundation/bsfCore/Particles/BsParticleEvolver.cpp`): the texture
animation evolver, the plane- and world-geometry collision evolver, the shared
collision-response formula and the group raycast batcher.  Machine floats are
modelled by exact rationals; external collaborators (physics queries, collider
ray casts, coordinate transforms) are abstracted as function parameters, per
the spec's interface section.
-/

set_option autoImplicit false

namespace BsParticle

/-- Three-component vector (models `bs::Vector3` over exact rationals). -/
structure Vec3 where
  x : ℚ
  y : ℚ
  z : ℚ
  deriving DecidableEq, Repr

instance : Add Vec3 := ⟨fun a b => ⟨a.x + b.x, a.y + b.y, a.z + b.z⟩⟩

instance : Sub Vec3 := ⟨fun a b => ⟨a.x - b.x, a.y - b.y, a.z - b.z⟩⟩

instance : HMul Vec3 ℚ Vec3 := ⟨fun v s => ⟨v.x * s, v.y * s, v.z * s⟩⟩

@[simp] theorem Vec3.add_def (a b : Vec3) :
    a + b = ⟨a.x + b.x, a.y + b.y, a.z + b.z⟩ := rfl

@[simp] theorem Vec3.sub_def (a b : Vec3) :
    a - b = ⟨a.x - b.x, a.y - b.y, a.z - b.z⟩ := rfl

@[simp] theorem Vec3.smul_def (v : Vec3) (s : ℚ) :
    v * s = ⟨v.x * s, v.y * s, v.z * s⟩ := rfl

/-- Dot product of two vectors (`Vector3::dot`). -/
def Vec3.dot (a b : Vec3) : ℚ :=
  a.x * b.x + a.y * b.y + a.z * b.z

/-- `Vector3::reflect`: mirror a vector about a surface normal. Modelled from
the spec: `reflect(v, n) = v - 2 * dot(v, n) * n` (the math library source is
not part of this core). -/
def Vec3.reflect (v n : Vec3) : Vec3 :=
  v - n * (2 * Vec3.dot v n)

/-- Tolerance used by `Math::approxEquals` (defaults to the 32-bit float
machine epsilon, `2^-23`).  Modelled from the spec: "tolerance-based
equality"; the math library source is not part of this core. -/
def approxTol : ℚ := 1 / 8388608

/-- One slot of the structure-of-arrays particle buffer (`ParticleSetData`),
gathered into a record: the fields the evolvers read or write. -/
structure Particle where
  position : Vec3
  velocity : Vec3
  lifetime : ℚ
  initialLifetime : ℚ
  seed : ℕ
  frame : ℚ
  deriving DecidableEq, Repr

/-- Collision evolver configuration (`PARTICLE_COLLISONS_DESC`), after the
constructor's clamping; the mode and layer are handled structurally. -/
structure CollisionsDesc where
  restitution : ℚ
  dampening : ℚ
  lifetimeLoss : ℚ
  radius : ℚ
  deriving DecidableEq, Repr

/-- `calcCollisionResponse`: new `(position, velocity)` after a particle was
detected to be colliding, given the hit point and normal. -/
def calcCollisionResponse (position velocity hitPos hitNormal : Vec3)
    (desc : CollisionsDesc) : Vec3 × Vec3 :=
  let diff := position - hitPos
  let dampenFactor := 1 - desc.dampening
  let reflectedPos := Vec3.reflect diff hitNormal * dampenFactor
  let reflectedVel := Vec3.reflect velocity hitNormal * dampenFactor
  let restitutionFactor := 1 - desc.restitution
  let reflectedPos2 :=
    reflectedPos - hitNormal * (Vec3.dot reflectedPos hitNormal * restitutionFactor)
  let reflectedVel2 :=
    reflectedVel - hitNormal * (Vec3.dot reflectedVel hitNormal * restitutionFactor)
  (hitPos + reflectedPos2, reflectedVel2)

/-- A plane in normal–distance form (`bs::Plane`). -/
structure Plane where
  normal : Vec3
  d : ℚ
  deriving DecidableEq, Repr

/-- `Plane::getDistance`: the signed distance from a point to the plane.
Modelled from the spec ("the particle's signed distance to it"); the math
library source is not part of this core. -/
def planeDistance (pl : Plane) (p : Vec3) : ℚ :=
  Vec3.dot pl.normal p - pl.d

/-- Both gates of the plane-mode inner loop pass for particle `p`: the signed
distance to the plane does not exceed `radius`, and the velocity component
along the plane normal is not approximately zero. -/
def planeQualifies (desc : CollisionsDesc) (pl : Plane) (p : Particle) : Bool :=
  decide (planeDistance pl p.position ≤ desc.radius) &&
    decide (approxTol < |Vec3.dot pl.normal p.velocity|)

/-- The hit branch of the plane-mode inner loop: time-to-boundary along the
velocity, hit position by projecting the particle forward, the shared response
formula, and `lifetimeLoss * initialLifetime` subtracted from the lifetime. -/
def planeHitResponse (desc : CollisionsDesc) (pl : Plane) (p : Particle) : Particle :=
  let dist := planeDistance pl p.position
  let distToTravelAlongNormal := Vec3.dot pl.normal p.velocity
  let distFromBoundary := desc.radius - dist
  let rayT := distFromBoundary / distToTravelAlongNormal
  let hitPos := p.position + p.velocity * rayT
  let pv := calcCollisionResponse p.position p.velocity hitPos pl.normal desc
  { p with
      position := pv.1
      velocity := pv.2
      lifetime := p.lifetime - desc.lifetimeLoss * p.initialLifetime }

/-- The plane-mode inner loop of `ParticleCollisions::evolve` for one
particle: scan the planes in configured order, skip a plane whose signed
distance exceeds `radius` or whose normal is approximately orthogonal to the
velocity, and stop at the first qualifying plane. -/
def scanPlanes (desc : CollisionsDesc) (p : Particle) : List Plane → Particle
  | [] => p
  | pl :: rest =>
    if desc.radius < planeDistance pl p.position then scanPlanes desc p rest
    else if |Vec3.dot pl.normal p.velocity| ≤ approxTol then scanPlanes desc p rest
    else planeHitResponse desc pl p

/-- `ParticleCollisions::evolve`, plane branch, over the whole buffer; when
the particles are not in world space each plane is transformed into local
space once (the affine plane transform is abstracted as `planeToLocal`). -/
def planeEvolve (desc : CollisionsDesc) (planeToLocal : Plane → Plane)
    (worldSpace : Bool) (collisionPlanes : List Plane)
    (ps : List Particle) : List Particle :=
  let planes :=
    if worldSpace then collisionPlanes else collisionPlanes.map planeToLocal
  ps.map (fun p => scanPlanes desc p planes)

/-- Number of `Plane` slots the plane branch allocates for the local-space
scratch buffer: the source calls `bs_stack_alloc<Plane>(numParticles)`. -/
def localPlanesAllocCount (numParticles numPlanes : ℕ) : ℕ := numParticles

/-- Number of transformed planes the plane branch writes into that scratch
buffer: the setup loop runs `for i in [0, numPlanes)`. -/
def localPlanesWriteCount (numParticles numPlanes : ℕ) : ℕ := numPlanes

/-- Sprite-sheet grid animation descriptor (`SpriteSheetGridAnimation`). -/
structure GridAnim where
  numRows : ℕ
  numColumns : ℕ
  count : ℕ
  deriving DecidableEq, Repr

/-- Texture animation configuration (`PARTICLE_TEXTURE_ANIMATION_DESC`). -/
structure TexAnimDesc where
  randomizeRow : Bool
  numCycles : ℕ
  deriving DecidableEq, Repr

/-- The fixed decorrelation constant `PARTICLE_ROW_VARIATION = 0x1e8b2f4a`. -/
def PARTICLE_ROW_VARIATION : ℕ := 0x1e8b2f4a

/-- Modelled from the spec: the pseudo-random generator (`bs::Random`) is an
external collaborator ("constructible from a 32-bit seed; exposes a
bounded-range integer draw `getRange(min, max)`", deterministic, treated as
`[min, max)`); its internals are not part of this core.  One draw is modelled
as a fixed integer mix of the seed reduced into the range. -/
def randomGetRange (seed lo hi : ℕ) : ℕ :=
  if hi ≤ lo then lo
  else lo + (seed * 747796405 + 2891336453) % 4294967296 % (hi - lo)

/-- The row-randomization step: a fresh generator seeded with
`seed[i] + PARTICLE_ROW_VARIATION` (32-bit wraparound addition) draws one
bounded integer in `[0, numRows)`. -/
def selectRow (grid : GridAnim) (seed : ℕ) : ℕ :=
  randomGetRange ((seed + PARTICLE_ROW_VARIATION) % 4294967296) 0 grid.numRows

/-- Frame offset and per-particle frame count chosen by the
row-randomization step: `(row * numColumns, numColumns)` with randomization,
`(0, count)` without. -/
def frameParams (desc : TexAnimDesc) (grid : GridAnim) (seed : ℕ) : ℕ × ℕ :=
  if desc.randomizeRow then
    let row := selectRow grid seed
    (row * grid.numColumns, grid.numColumns)
  else
    (0, grid.count)

/-- `Math::repeat`: wrap `t` into `[0, len)` with modulo semantics. Modelled
from the spec ("wrap into `[0,1)` (repeat/modulo semantics, not clamp)"); the
math library source is not part of this core. -/
def mathRepeat (t len : ℚ) : ℚ := t - ⌊t / len⌋ * len

/-- `Math::clamp`: `max(min(val, maxval), minval)`. Modelled from the spec
(`clamp(t * frameCount, 0, frameCount - 1)`); the math library source is not
part of this core. -/
def mathClamp (v lo hi : ℚ) : ℚ := max (min v hi) lo

/-- The per-particle body of `ParticleTextureAnimation::evolve` on the valid
animation path: the value written to `frame[i]`.  `numFrames - 1` is
unsigned subtraction in the source, modelled by truncated `ℕ` subtraction
(identical whenever `numFrames ≥ 1`, which the validity gate guarantees). -/
def texFrame (desc : TexAnimDesc) (grid : GridAnim) (p : Particle) : ℚ :=
  ((frameParams desc grid p.seed).1 : ℚ) +
    mathClamp
      (mathRepeat
          ((desc.numCycles : ℚ) *
            ((p.initialLifetime - p.lifetime) / p.initialLifetime)) 1 *
        ((frameParams desc grid p.seed).2 : ℚ))
      0 (((frameParams desc grid p.seed).2 - 1 : ℕ) : ℚ)

/-- Grid-descriptor validity (`numRows > 0 && numColumns > 0 && count > 0`). -/
def validGrid (g : GridAnim) : Bool :=
  decide (0 < g.numRows) && decide (0 < g.numColumns) && decide (0 < g.count)

/-- The `hasValidAnimation` check: a sprite texture was resolved from the
bound material (`some g`) and its grid descriptor is valid; `none` models a
missing parent, an unloaded material or an unloaded sprite texture. -/
def validAnimOpt : Option GridAnim → Bool
  | none => false
  | some g => validGrid g

/-- `ParticleTextureAnimation::evolve` over the whole buffer: the fallback
path writes `frame[i] = 0` for every particle, the valid path writes
`texFrame`. -/
def textureAnimationEvolve (desc : TexAnimDesc) (anim : Option GridAnim)
    (ps : List Particle) : List Particle :=
  match anim with
  | some g =>
    if validGrid g then ps.map (fun p => { p with frame := texFrame desc g p })
    else ps.map (fun p => { p with frame := 0 })
  | none => ps.map (fun p => { p with frame := 0 })

/-- A ray segment (`bs::LineSegment3`); `endP` models the source field
`end` (a Lean keyword). -/
structure Segment where
  start : Vec3
  endP : Vec3
  deriving DecidableEq, Repr

/-- A narrow-phase ray-cast result (`PhysicsQueryHit`). -/
structure QueryHit where
  distance : ℚ
  point : Vec3
  normal : Vec3
  deriving DecidableEq, Repr

/-- A physics collider (`bs::Collider`), abstracted to its `rayCast` entry
point per the spec's external-interface contract: from the ray origin and the
unnormalized segment difference (which together determine the normalized
direction and the max distance) to an optional hit. -/
def Collider : Type := Vec3 → Vec3 → Option QueryHit

/-- `ParticleHitInfo`. -/
structure HitInfo where
  position : Vec3
  normal : Vec3
  idx : ℕ
  deriving DecidableEq, Repr

/-- An axis-aligned box (`bs::AABox`) as min/max corners. -/
structure AABB where
  lo : Vec3
  hi : Vec3
  deriving DecidableEq, Repr

/-- `AABox::merge` with a point: extend the box to cover the point. -/
def mergePoint (b : AABB) (v : Vec3) : AABB :=
  ⟨⟨min b.lo.x v.x, min b.lo.y v.y, min b.lo.z v.z⟩,
   ⟨max b.hi.x v.x, max b.hi.y v.y, max b.hi.z v.z⟩⟩

/-- All segment endpoints, in merge order (`start` then `end` per segment). -/
def segPoints : List Segment → List Vec3
  | [] => []
  | s :: rest => s.start :: s.endP :: segPoints rest

/-- Union bounding box of a nonempty group of segments.  Starting from
`AABox::INF_BOX` and merging every endpoint equals folding `mergePoint` from
the degenerate box at the first endpoint, since merging a point twice is
idempotent. -/
def groupBounds (s0 : Segment) (segs : List Segment) : AABB :=
  (segPoints segs).foldl mergePoint ⟨s0.start, s0.start⟩

/-- Squared length of the difference vector of a segment. -/
def segLengthSq (s : Segment) : ℚ :=
  Vec3.dot (s.endP - s.start) (s.endP - s.start)

/-- The inner collider loop of `groupRaycast`: cast the ray against every
broad-phase candidate, keeping the hit of strictly smallest distance (ties
keep the first found). -/
def nearestHit (cs : List Collider) (origin diff : Vec3) : Option QueryHit :=
  cs.foldl
    (fun acc c =>
      match c origin diff with
      | none => acc
      | some q =>
        match acc with
        | none => some q
        | some b => if q.distance < b.distance then some q else acc)
    none

/-- The narrow-phase body of `groupRaycast` for segment number `i`: skip the
segment when its length is approximately zero (`|length| ≤ approxTol`, stated
on squares since both sides are nonnegative, square roots being unavailable
over `ℚ`); otherwise emit the nearest hit, if any, with the segment's index.
The normalized ray direction and max distance are functions of the origin and
difference vector, which the abstract collider receives. -/
def perSegmentRaycast (cs : List Collider) (i : ℕ) (seg : Segment) :
    Option HitInfo :=
  if segLengthSq seg ≤ approxTol ^ 2 then none
  else
    match nearestHit cs seg.start (seg.endP - seg.start) with
    | none => none
    | some q => some ⟨q.point, q.normal, i⟩

/-- The narrow-phase loop of `groupRaycast`: segment `i`, then `i + 1`, ...;
hits are appended densely in segment order. -/
def narrowPhase (cs : List Collider) : ℕ → List Segment → List HitInfo
  | _, [] => []
  | i, seg :: rest =>
    match perSegmentRaycast cs i seg with
    | some h => h :: narrowPhase cs (i + 1) rest
    | none => narrowPhase cs (i + 1) rest

/-- The broad-phase step of `groupRaycast`: the physics collaborator's
`_boxOverlap` (abstracted as `bo`, the layer folded into it) queried at the
union bounds; no query is made when there are no rays. -/
def broadPhase (bo : AABB → List Collider) : List Segment → List Collider
  | [] => []
  | s0 :: rest => bo (groupBounds s0 (s0 :: rest))

/-- `groupRaycast`: zero rays or an empty broad-phase result yield no hits;
otherwise the narrow-phase loop runs over all segments. -/
def groupRaycast (bo : AABB → List Collider) (segs : List Segment) :
    List HitInfo :=
  match segs with
  | [] => []
  | s0 :: rest =>
    let cs := bo (groupBounds s0 (s0 :: rest))
    if cs.isEmpty then []
    else narrowPhase cs 0 (s0 :: rest)

/-- The per-tick state snapshot (`ParticleSystemState`), the matrix
transforms abstracted to the maps the evolver applies (affine point
transform, direction-only transform). -/
structure TickState where
  timeStep : ℚ
  worldSpace : Bool
  localToWorldPoint : Vec3 → Vec3
  worldToLocalPoint : Vec3 → Vec3
  worldToLocalDir : Vec3 → Vec3

/-- Segment construction of the world-geometry branch: from the previous
position `position - velocity * timeStep` to the current position, then (when
not in world space) both endpoints transformed by `localToWorld`. -/
def worldSegments (st : TickState) (ps : List Particle) : List Segment :=
  let raw := ps.map fun p => (⟨p.position - p.velocity * st.timeStep, p.position⟩ : Segment)
  if st.worldSpace then raw
  else raw.map fun s => ⟨st.localToWorldPoint s.start, st.localToWorldPoint s.endP⟩

/-- Apply one collision hit: the response formula on the particle named by the
hit's `idx`, and `lifetimeLoss * initialLifetime` subtracted from its
lifetime. -/
def applyOneHit (desc : CollisionsDesc) (h : HitInfo) (ps : List Particle) :
    List Particle :=
  match ps.get? h.idx with
  | none => ps
  | some p =>
    let pv := calcCollisionResponse p.position p.velocity h.position h.normal desc
    ps.set h.idx
      { p with
          position := pv.1
          velocity := pv.2
          lifetime := p.lifetime - desc.lifetimeLoss * p.initialLifetime }

/-- The hit-application loop of the world-geometry branch. -/
def applyHits (desc : CollisionsDesc) : List HitInfo → List Particle → List Particle
  | [], ps => ps
  | h :: rest, ps => applyHits desc rest (applyOneHit desc h ps)

/-- `ParticleCollisions::evolve`, world-geometry branch: build one segment per
particle, run the group raycast, transform hits back into local space when
needed, and apply every hit. -/
def worldEvolve (bo : AABB → List Collider) (desc : CollisionsDesc)
    (st : TickState) (ps : List Particle) : List Particle :=
  let segs := worldSegments st ps
  let hits := groupRaycast bo segs
  let hits2 :=
    if st.worldSpace then hits
    else hits.map fun h =>
      { h with
          position := st.worldToLocalPoint h.position
          normal := st.worldToLocalDir h.normal }
  applyHits desc hits2 ps

/-- Strictly-increasing test on a list of indices. -/
def strictIncr : List ℕ → Bool
  | [] => true
  | [_] => true
  | a :: b :: rest => decide (a < b) && strictIncr (b :: rest)

/-- The hit equals the one its own segment produced. -/
def hitFromItsSegment (cs : List Collider) (segs : List Segment) (h : HitInfo) :
    Bool :=
  match segs.get? h.idx with
  | none => false
  | some s => decide (perSegmentRaycast cs h.idx s = some h)

end BsParticle

namespace BsParticle

/-- C1 counterexample: with plane normal `(0,1,0)`, `dampening = 0`,
`restitution = 0`, particle position `(0,-1,0)`, velocity `(0,-2,0)` and hit
position `(0,0,0)`, `calcCollisionResponse` does NOT return the mirrored
values `(0,1,0)` / `(0,2,0)`: with `restitution = 0` the restitution factor is
`1`, so the full normal-aligned component of the reflected vectors is removed. -/
theorem c1_response_not_mirrored :
    calcCollisionResponse ⟨0, -1, 0⟩ ⟨0, -2, 0⟩ ⟨0, 0, 0⟩ ⟨0, 1, 0⟩
      ⟨0, 0, 0, 0⟩ ≠ (⟨0, 1, 0⟩, ⟨0, 2, 0⟩) := by
  norm_num [calcCollisionResponse, Vec3.reflect, Vec3.dot]

/-- C1 amended: with the stated inputs and `restitution = 0` the result is
position `(0,0,0)` and velocity `(0,0,0)` (the normal component of the
reflection is removed entirely); the mirrored values `(0,1,0)` / `(0,2,0)`
are produced when `restitution = 1` instead. -/
theorem c1_response_exact :
    calcCollisionResponse ⟨0, -1, 0⟩ ⟨0, -2, 0⟩ ⟨0, 0, 0⟩ ⟨0, 1, 0⟩
        ⟨0, 0, 0, 0⟩ = (⟨0, 0, 0⟩, ⟨0, 0, 0⟩) ∧
      calcCollisionResponse ⟨0, -1, 0⟩ ⟨0, -2, 0⟩ ⟨0, 0, 0⟩ ⟨0, 1, 0⟩
        ⟨1, 0, 0, 0⟩ = (⟨0, 1, 0⟩, ⟨0, 2, 0⟩) := by
  constructor <;> norm_num [calcCollisionResponse, Vec3.reflect, Vec3.dot, Prod.ext_iff]

/-- C2 (code bug): with particles not in world space, 1 live particle and 2
configured collision planes, the plane branch allocates scratch for
`numParticles = 1` planes (`bs_stack_alloc<Plane>(numParticles)`) while its
setup loop writes `numPlanes = 2` transformed planes, so the write at index 1
is outside the allocation.  The claim (allocation sized to the plane count)
matches the spec but not the source, which sizes it to the particle count. -/
theorem c2_plane_scratch_overflow :
    localPlanesAllocCount 1 2 < localPlanesWriteCount 1 2 := by
  unfold localPlanesWriteCount localPlanesAllocCount
  decide

/-- C8: the row selected by the row-randomization step is a deterministic
function of the particle seed and the grid descriptor alone: two runs with
identical seed and identical descriptor yield the identical row index. -/
theorem c8_row_deterministic (g1 g2 : GridAnim) (s1 s2 : ℕ)
    (hg : g1 = g2) (hs : s1 = s2) : selectRow g1 s1 = selectRow g2 s2 := by
  rw [hg, hs]

/-- C8 witness: identical seed and descriptor at a concrete input. -/
theorem c8_row_deterministic_witness :
    (⟨2, 3, 6⟩ : GridAnim) = ⟨2, 3, 6⟩ ∧ (7 : ℕ) = 7 ∧
      selectRow ⟨2, 3, 6⟩ 7 = selectRow ⟨2, 3, 6⟩ 7 :=
  ⟨rfl, rfl, c8_row_deterministic ⟨2, 3, 6⟩ ⟨2, 3, 6⟩ 7 7 rfl rfl⟩

/-- C5: whenever the animation is not valid (no material, texture not loaded,
or a grid descriptor with a zero dimension), the texture animation evolver
writes `frame[i] = 0` for every particle, whatever the buffer contents. -/
theorem c5_fallback_zero (desc : TexAnimDesc) (anim : Option GridAnim)
    (ps : List Particle) (h : validAnimOpt anim = false) :
    (textureAnimationEvolve desc anim ps).map Particle.frame =
      List.replicate ps.length 0 := by
  have key : ∀ l : List Particle,
      (l.map fun p => ({ p with frame := 0 } : Particle)).map Particle.frame =
        List.replicate l.length 0 := by
    intro l
    induction l with
    | nil => rfl
    | cons a t ih => simp [List.replicate_succ, ih]
  cases anim with
  | none => simpa [textureAnimationEvolve] using key ps
  | some g =>
    have hg : validGrid g = false := by simpa [validAnimOpt] using h
    simpa [textureAnimationEvolve, hg] using key ps

/-- C5 witness: an invalid descriptor (`numRows = 0`) over a one-particle
buffer with arbitrary contents. -/
theorem c5_fallback_zero_witness :
    validAnimOpt (some ⟨0, 3, 6⟩) = false ∧
      (textureAnimationEvolve ⟨true, 1⟩ (some ⟨0, 3, 6⟩)
            [⟨⟨1, 2, 3⟩, ⟨4, 5, 6⟩, 1, 2, 9, 7⟩]).map Particle.frame =
        List.replicate 1 0 :=
  ⟨rfl, c5_fallback_zero ⟨true, 1⟩ (some ⟨0, 3, 6⟩) _ rfl⟩

/-- C9: the texture animation evolver mutates only the `frame` field: the
position, velocity, lifetime, initial lifetime and seed of every particle are
unchanged, on the valid-animation path and on the fallback path alike. -/
theorem c9_texture_evolve_frame_only (desc : TexAnimDesc)
    (anim : Option GridAnim) (ps : List Particle) :
    (textureAnimationEvolve desc anim ps).map Particle.position =
        ps.map Particle.position ∧
      (textureAnimationEvolve desc anim ps).map Particle.velocity =
        ps.map Particle.velocity ∧
      (textureAnimationEvolve desc anim ps).map Particle.lifetime =
        ps.map Particle.lifetime ∧
      (textureAnimationEvolve desc anim ps).map Particle.initialLifetime =
        ps.map Particle.initialLifetime ∧
      (textureAnimationEvolve desc anim ps).map Particle.seed =
        ps.map Particle.seed := by
  have key : ∀ (g : Particle → ℚ) (l : List Particle),
      ((l.map fun p => ({ p with frame := g p } : Particle)).map
            Particle.position = l.map Particle.position) ∧
        ((l.map fun p => ({ p with frame := g p } : Particle)).map
            Particle.velocity = l.map Particle.velocity) ∧
        ((l.map fun p => ({ p with frame := g p } : Particle)).map
            Particle.lifetime = l.map Particle.lifetime) ∧
        ((l.map fun p => ({ p with frame := g p } : Particle)).map
            Particle.initialLifetime = l.map Particle.initialLifetime) ∧
        ((l.map fun p => ({ p with frame := g p } : Particle)).map
            Particle.seed = l.map Particle.seed) := by
    intro g l
    induction l with
    | nil => simp
    | cons a t ih =>
      simp only [List.map_cons] at ih ⊢
      exact ⟨by rw [ih.1], by rw [ih.2.1], by rw [ih.2.2.1],
        by rw [ih.2.2.2.1], by rw [ih.2.2.2.2]⟩
  cases anim with
  | none => simpa [textureAnimationEvolve] using key (fun _ => 0) ps
  | some g =>
    by_cases hg : validGrid g = true
    · simpa [textureAnimationEvolve, hg] using key (texFrame desc g) ps
    · have hg' : validGrid g = false := by
        cases hvg : validGrid g with
        | false => rfl
        | true => exact absurd hvg hg
      simpa [textureAnimationEvolve, hg'] using key (fun _ => 0) ps

/-- `mathClamp` never goes below its lower bound. -/
theorem le_mathClamp (v lo hi : ℚ) : lo ≤ mathClamp v lo hi :=
  le_max_right _ _

/-- `mathClamp` never exceeds its upper bound when the bounds are ordered. -/
theorem mathClamp_le (v lo hi : ℚ) (h : lo ≤ hi) : mathClamp v lo hi ≤ hi :=
  max_le (min_le_right _ _) h

/-- The per-particle frame count chosen by the row-randomization step is
positive whenever the grid descriptor is valid. -/
theorem frameParams_count_pos (desc : TexAnimDesc) (grid : GridAnim) (seed : ℕ)
    (h : validGrid grid = true) : 1 ≤ (frameParams desc grid seed).2 := by
  simp only [validGrid, Bool.and_eq_true, decide_eq_true_eq] at h
  obtain ⟨⟨h1, h2⟩, h3⟩ := h
  cases hr : desc.randomizeRow <;> simp [frameParams, hr] <;> omega

/-- Offset plus a value clamped to `[0, n - 1]` lies in `[offset, offset + n - 1]`. -/
theorem offset_add_clamp_bound (off n : ℕ) (v : ℚ) (hn : 1 ≤ n) :
    (off : ℚ) ≤ (off : ℚ) + mathClamp v 0 ((n - 1 : ℕ) : ℚ) ∧
      (off : ℚ) + mathClamp v 0 ((n - 1 : ℕ) : ℚ) ≤ (off : ℚ) + (n : ℚ) - 1 := by
  have h0 : (0 : ℚ) ≤ ((n - 1 : ℕ) : ℚ) := Nat.cast_nonneg _
  have hcast : ((n - 1 : ℕ) : ℚ) = (n : ℚ) - 1 := by
    rw [Nat.cast_sub hn, Nat.cast_one]
  refine ⟨?_, ?_⟩
  · linarith [le_mathClamp v 0 ((n - 1 : ℕ) : ℚ)]
  · linarith [mathClamp_le v 0 ((n - 1 : ℕ) : ℚ) h0]

/-- C4: on the valid-animation path, the frame written for a particle is
bounded by the offset and frame count chosen in the row-randomization step:
`frameOffset ≤ frame[i] ≤ frameOffset + frameCount - 1`. -/
theorem c4_frame_bound (desc : TexAnimDesc) (grid : GridAnim) (p : Particle)
    (hvalid : validGrid grid = true) (hinit : 0 < p.initialLifetime) :
    ((frameParams desc grid p.seed).1 : ℚ) ≤ texFrame desc grid p ∧
      texFrame desc grid p ≤
        ((frameParams desc grid p.seed).1 : ℚ) +
          ((frameParams desc grid p.seed).2 : ℚ) - 1 := by
  have hn := frameParams_count_pos desc grid p.seed hvalid
  unfold texFrame
  exact offset_add_clamp_bound _ _ _ hn

/-- C4 witness: a 2×3 grid with randomized rows and a particle halfway
through its (positive) initial lifetime. -/
theorem c4_frame_bound_witness :
    validGrid ⟨2, 3, 6⟩ = true ∧
      (0 : ℚ) < 2 ∧
      (((frameParams ⟨true, 1⟩ ⟨2, 3, 6⟩ 7).1 : ℚ) ≤
          texFrame ⟨true, 1⟩ ⟨2, 3, 6⟩ ⟨⟨0, 0, 0⟩, ⟨0, 0, 0⟩, 1, 2, 7, 0⟩ ∧
        texFrame ⟨true, 1⟩ ⟨2, 3, 6⟩ ⟨⟨0, 0, 0⟩, ⟨0, 0, 0⟩, 1, 2, 7, 0⟩ ≤
          ((frameParams ⟨true, 1⟩ ⟨2, 3, 6⟩ 7).1 : ℚ) +
            ((frameParams ⟨true, 1⟩ ⟨2, 3, 6⟩ 7).2 : ℚ) - 1) :=
  ⟨rfl, by decide,
    c4_frame_bound ⟨true, 1⟩ ⟨2, 3, 6⟩ ⟨⟨0, 0, 0⟩, ⟨0, 0, 0⟩, 1, 2, 7, 0⟩
      rfl (by decide)⟩

/-- A failed qualification means at least one gate rejects: the signed
distance exceeds the radius, or the velocity is approximately parallel to the
plane. -/
theorem planeQualifies_false_iff (desc : CollisionsDesc) (pl : Plane)
    (p : Particle) :
    planeQualifies desc pl p = false ↔
      desc.radius < planeDistance pl p.position ∨
        |Vec3.dot pl.normal p.velocity| ≤ approxTol := by
  simp only [planeQualifies, Bool.and_eq_false_iff, decide_eq_false_iff_not,
    not_le, not_lt]

/-- A successful qualification means both gates pass. -/
theorem planeQualifies_true_iff (desc : CollisionsDesc) (pl : Plane)
    (p : Particle) :
    planeQualifies desc pl p = true ↔
      planeDistance pl p.position ≤ desc.radius ∧
        approxTol < |Vec3.dot pl.normal p.velocity| := by
  simp [planeQualifies]

/-- C3: scanning in configured order, the first plane that passes both gates
receives the response formula and the lifetime loss exactly once, and the
planes after it are never examined: the result does not depend on `post`. -/
theorem c3_first_qualifying_plane (desc : CollisionsDesc) (p : Particle)
    (pre post : List Plane) (pl : Plane)
    (hpre : pre.all (fun q => !planeQualifies desc q p) = true)
    (hpl : planeQualifies desc pl p = true) :
    scanPlanes desc p (pre ++ pl :: post) = planeHitResponse desc pl p := by
  induction pre with
  | nil =>
    obtain ⟨h1, h2⟩ := (planeQualifies_true_iff desc pl p).mp hpl
    simp only [List.nil_append, scanPlanes]
    rw [if_neg (not_lt.mpr h1), if_neg (not_le.mpr h2)]
  | cons q rest ih =>
    simp only [List.all_cons, Bool.and_eq_true, Bool.not_eq_true'] at hpre
    obtain ⟨hq, hrest⟩ := hpre
    have hcase := (planeQualifies_false_iff desc q p).mp hq
    simp only [List.cons_append, scanPlanes]
    rcases hcase with h | h
    · rw [if_pos h]
      exact ih hrest
    · by_cases hlt : desc.radius < planeDistance q p.position
      · rw [if_pos hlt]
        exact ih hrest
      · rw [if_neg hlt, if_pos h]
        exact ih hrest

/-- C3 witness: a non-qualifying plane first (signed distance 4 above the
radius), then the qualifying plane, then a trailing plane never examined. -/
theorem c3_first_qualifying_plane_witness :
    ([⟨⟨0, 1, 0⟩, -5⟩] : List Plane).all
        (fun q =>
          !planeQualifies ⟨0, 0, 1/2, 0⟩ q
            ⟨⟨0, -1, 0⟩, ⟨0, -2, 0⟩, 1, 1, 0, 0⟩) = true ∧
      planeQualifies ⟨0, 0, 1/2, 0⟩ ⟨⟨0, 1, 0⟩, 0⟩
          ⟨⟨0, -1, 0⟩, ⟨0, -2, 0⟩, 1, 1, 0, 0⟩ = true ∧
      scanPlanes ⟨0, 0, 1/2, 0⟩ ⟨⟨0, -1, 0⟩, ⟨0, -2, 0⟩, 1, 1, 0, 0⟩
          ([⟨⟨0, 1, 0⟩, -5⟩] ++ ⟨⟨0, 1, 0⟩, 0⟩ :: [⟨⟨0, 1, 0⟩, 0⟩]) =
        planeHitResponse ⟨0, 0, 1/2, 0⟩ ⟨⟨0, 1, 0⟩, 0⟩
          ⟨⟨0, -1, 0⟩, ⟨0, -2, 0⟩, 1, 1, 0, 0⟩ :=
  ⟨by norm_num [planeQualifies, planeDistance, Vec3.dot, approxTol],
    by norm_num [planeQualifies, planeDistance, Vec3.dot, approxTol],
    c3_first_qualifying_plane _ _ _ _ _
      (by norm_num [planeQualifies, planeDistance, Vec3.dot, approxTol])
      (by norm_num [planeQualifies, planeDistance, Vec3.dot, approxTol])⟩

/-- A produced narrow-phase hit carries the index it was produced under. -/
theorem perSegmentRaycast_idx (cs : List Collider) (i : ℕ) (seg : Segment)
    (h : HitInfo) (hh : perSegmentRaycast cs i seg = some h) : h.idx = i := by
  unfold perSegmentRaycast at hh
  split at hh
  · exact Option.noConfusion hh
  · split at hh
    · exact Option.noConfusion hh
    · cases hh
      rfl

/-- A degenerate segment is skipped before the ray is built: whatever the
candidate colliders, no hit is produced for it. -/
theorem perSegmentRaycast_degenerate (cs : List Collider) (i : ℕ)
    (seg : Segment) (h : segLengthSq seg ≤ approxTol ^ 2) :
    perSegmentRaycast cs i seg = none := by
  unfold perSegmentRaycast
  rw [if_pos h]

/-- Every hit of the narrow-phase loop started at `i` was produced by the
segment its index names (offset by `i`). -/
theorem narrowPhase_mem (cs : List Collider) :
    ∀ (segs : List Segment) (i : ℕ) (x : HitInfo),
      x ∈ narrowPhase cs i segs →
        ∃ j s, segs.get? j = some s ∧ x.idx = i + j ∧
          perSegmentRaycast cs (i + j) s = some x := by
  intro segs
  induction segs with
  | nil =>
    intro i x hx
    exact absurd hx (by simp [narrowPhase])
  | cons seg rest ih =>
    intro i x hx
    rcases hps : perSegmentRaycast cs i seg with _ | h
    · simp only [narrowPhase, hps] at hx
      obtain ⟨j, s, h1, h2, h3⟩ := ih (i + 1) x hx
      refine ⟨j + 1, s, by simpa using h1, by omega, ?_⟩
      have harith : i + (j + 1) = i + 1 + j := by omega
      rw [harith]
      exact h3
    · simp only [narrowPhase, hps, List.mem_cons] at hx
      rcases hx with rfl | hx
      · have hidx := perSegmentRaycast_idx cs i seg x hps
        exact ⟨0, seg, rfl, by omega, by simpa [hidx] using hps⟩
      · obtain ⟨j, s, h1, h2, h3⟩ := ih (i + 1) x hx
        refine ⟨j + 1, s, by simpa using h1, by omega, ?_⟩
        have harith : i + (j + 1) = i + 1 + j := by omega
        rw [harith]
        exact h3

/-- The narrow-phase loop emits at most one hit per segment. -/
theorem narrowPhase_length (cs : List Collider) :
    ∀ (segs : List Segment) (i : ℕ),
      (narrowPhase cs i segs).length ≤ segs.length := by
  intro segs
  induction segs with
  | nil => intro i; simp [narrowPhase]
  | cons seg rest ih =>
    intro i
    rcases hps : perSegmentRaycast cs i seg with _ | h
    · simp only [narrowPhase, hps, List.length_cons]
      exact le_trans (ih (i + 1)) (Nat.le_succ _)
    · simp only [narrowPhase, hps, List.length_cons]
      exact Nat.succ_le_succ (ih (i + 1))

/-- Indices emitted by the narrow-phase loop started at `i` are at least `i`
and strictly increasing. -/
theorem narrowPhase_idx_mono (cs : List Collider) :
    ∀ (segs : List Segment) (i : ℕ),
      (∀ x ∈ narrowPhase cs i segs, i ≤ x.idx) ∧
        strictIncr ((narrowPhase cs i segs).map HitInfo.idx) = true := by
  intro segs
  induction segs with
  | nil => intro i; simp [narrowPhase, strictIncr]
  | cons seg rest ih =>
    intro i
    rcases hps : perSegmentRaycast cs i seg with _ | h
    · refine ⟨?_, ?_⟩
      · intro x hx
        simp only [narrowPhase, hps] at hx
        exact le_trans (Nat.le_succ i) ((ih (i + 1)).1 x hx)
      · simp only [narrowPhase, hps]
        exact (ih (i + 1)).2
    · have hidx := perSegmentRaycast_idx cs i seg h hps
      refine ⟨?_, ?_⟩
      · intro x hx
        simp only [narrowPhase, hps, List.mem_cons] at hx
        rcases hx with rfl | hx
        · omega
        · exact le_trans (Nat.le_succ i) ((ih (i + 1)).1 x hx)
      · simp only [narrowPhase, hps, List.map_cons]
        rcases hnp : narrowPhase cs (i + 1) rest with _ | ⟨y, ys⟩
        · simp [strictIncr]
        · have hy : i + 1 ≤ y.idx :=
            (ih (i + 1)).1 y (by rw [hnp]; exact List.mem_cons_self _ _)
          have htail := (ih (i + 1)).2
          rw [hnp] at htail
          simp only [List.map_cons] at htail ⊢
          simp only [strictIncr, Bool.and_eq_true, decide_eq_true_eq]
          exact ⟨by omega, htail⟩

/-- C10: the group raycast emits at most one hit per segment (so at most
`numRays` hits in total), every hit's particle index is in range and names
the segment that produced it, and the emitted indices are strictly
increasing — all writes into a caller-provided array of capacity `numRays`
stay in bounds. -/
theorem c10_groupRaycast_safety (bo : AABB → List Collider)
    (segs : List Segment) :
    (groupRaycast bo segs).length ≤ segs.length ∧
      (groupRaycast bo segs).all
          (fun x => decide (x.idx < segs.length)) = true ∧
      strictIncr ((groupRaycast bo segs).map HitInfo.idx) = true ∧
      (groupRaycast bo segs).all
          (hitFromItsSegment (broadPhase bo segs) segs) = true := by
  cases segs with
  | nil => simp [groupRaycast, broadPhase, strictIncr]
  | cons s0 rest =>
    by_cases he : (bo (groupBounds s0 (s0 :: rest))).isEmpty
    · simp [groupRaycast, he, strictIncr]
    · have hg : groupRaycast bo (s0 :: rest) =
          narrowPhase (bo (groupBounds s0 (s0 :: rest))) 0 (s0 :: rest) := by
        simp [groupRaycast, he]
      have hbp : broadPhase bo (s0 :: rest) =
          bo (groupBounds s0 (s0 :: rest)) := rfl
      rw [hg, hbp]
      refine ⟨narrowPhase_length _ _ 0, ?_, (narrowPhase_idx_mono _ _ 0).2, ?_⟩
      · rw [List.all_eq_true]
        intro x hx
        obtain ⟨j, s, h1, h2, h3⟩ := narrowPhase_mem _ _ 0 x hx
        simp only [Nat.zero_add] at h2 h3
        have hj : j < (s0 :: rest).length := by
          by_contra hge
          rw [List.get?_eq_none.mpr (le_of_not_lt hge)] at h1
          exact Option.noConfusion h1
        rw [decide_eq_true_eq, h2]
        exact hj
      · rw [List.all_eq_true]
        intro x hx
        obtain ⟨j, s, h1, h2, h3⟩ := narrowPhase_mem _ _ 0 x hx
        simp only [Nat.zero_add] at h2 h3
        unfold hitFromItsSegment
        rw [h2, h1, decide_eq_true_eq]
        exact h3

/-- C7: a segment whose length is approximately zero is skipped before the
direction normalization (it produces no narrow-phase result at all, for any
collider set), and no emitted hit carries its index. -/
theorem c7_degenerate_segment (bo : AABB → List Collider) (cs : List Collider)
    (segs : List Segment) (i : ℕ) (h : i < segs.length)
    (hdeg : segLengthSq (segs.get ⟨i, h⟩) ≤ approxTol ^ 2) :
    perSegmentRaycast cs i (segs.get ⟨i, h⟩) = none ∧
      (groupRaycast bo segs).all (fun x => decide (x.idx ≠ i)) = true := by
  refine ⟨perSegmentRaycast_degenerate cs i _ hdeg, ?_⟩
  rw [List.all_eq_true]
  intro x hx
  rw [decide_eq_true_eq]
  intro hxi
  cases segs with
  | nil => simp [groupRaycast] at hx
  | cons s0 rest =>
    by_cases he : (bo (groupBounds s0 (s0 :: rest))).isEmpty
    · simp [groupRaycast, he] at hx
    · have hx' : x ∈ narrowPhase (bo (groupBounds s0 (s0 :: rest))) 0
          (s0 :: rest) := by
        simpa [groupRaycast, he] using hx
      obtain ⟨j, s, h1, h2, h3⟩ := narrowPhase_mem _ _ 0 x hx'
      simp only [Nat.zero_add] at h2 h3
      have hji : j = i := by omega
      subst hji
      rw [List.get?_eq_get h] at h1
      cases h1
      rw [perSegmentRaycast_degenerate _ j _ hdeg] at h3
      exact Option.noConfusion h3

/-- C7 witness: a single zero-length segment (a particle with zero velocity
over the tick). -/
theorem c7_degenerate_segment_witness :
    segLengthSq (([⟨⟨0, 0, 0⟩, ⟨0, 0, 0⟩⟩] : List Segment).get
        ⟨0, Nat.zero_lt_one⟩) ≤ approxTol ^ 2 ∧
      perSegmentRaycast [] 0 (([⟨⟨0, 0, 0⟩, ⟨0, 0, 0⟩⟩] : List Segment).get
        ⟨0, Nat.zero_lt_one⟩) = none ∧
      (groupRaycast (fun _ => []) [⟨⟨0, 0, 0⟩, ⟨0, 0, 0⟩⟩]).all
        (fun x => decide (x.idx ≠ 0)) = true := by
  have hdeg : segLengthSq (([⟨⟨0, 0, 0⟩, ⟨0, 0, 0⟩⟩] : List Segment).get
      ⟨0, Nat.zero_lt_one⟩) ≤ approxTol ^ 2 := by
    norm_num [segLengthSq, Vec3.dot, approxTol]
  have main := c7_degenerate_segment (fun _ => []) []
    [⟨⟨0, 0, 0⟩, ⟨0, 0, 0⟩⟩] 0 Nat.zero_lt_one hdeg
  exact ⟨hdeg, main.1, main.2⟩

/-- C6: in world-geometry mode with a scene containing no colliders (the
broad-phase box-overlap query returns the empty list for every box), the
group raycast returns zero hits and the evolve call leaves every particle —
position, velocity and lifetime included — unchanged. -/
theorem c6_no_colliders_no_change (bo : AABB → List Collider)
    (desc : CollisionsDesc) (st : TickState) (ps : List Particle)
    (hb : bo = fun _ => []) :
    groupRaycast bo (worldSegments st ps) = [] ∧
      worldEvolve bo desc st ps = ps := by
  subst hb
  have hg : ∀ segs : List Segment,
      groupRaycast (fun _ => ([] : List Collider)) segs = [] := by
    intro segs
    cases segs with
    | nil => rfl
    | cons s0 rest => simp [groupRaycast]
  refine ⟨hg _, ?_⟩
  simp [worldEvolve, hg, applyHits]

/-- C6 witness: one moving particle, identity transforms, empty scene. -/
theorem c6_no_colliders_no_change_witness :
    (fun _ : AABB => ([] : List Collider)) = (fun _ => []) ∧
      groupRaycast (fun _ => [])
        (worldSegments ⟨1/60, true, id, id, id⟩
          [⟨⟨0, 0, 0⟩, ⟨1, 0, 0⟩, 1, 1, 3, 0⟩]) = [] ∧
      worldEvolve (fun _ => []) ⟨0, 0, 1, 0⟩ ⟨1/60, true, id, id, id⟩
          [⟨⟨0, 0, 0⟩, ⟨1, 0, 0⟩, 1, 1, 3, 0⟩] =
        [⟨⟨0, 0, 0⟩, ⟨1, 0, 0⟩, 1, 1, 3, 0⟩] := by
  have main := c6_no_colliders_no_change (fun _ => []) ⟨0, 0, 1, 0⟩
    ⟨1/60, true, id, id, id⟩ [⟨⟨0, 0, 0⟩, ⟨1, 0, 0⟩, 1, 1, 3, 0⟩] rfl
  exact ⟨rfl, main.1, main.2⟩

end BsParticle
